import Mathlib

/-!
Verification development for the letsmcp AI-service core
(provider registry, fallback executor, response parsing).

The TypeScript sources embedded here:
- `src/ai/service.ts` (AIService: registry, updateConfig, executeWithFallback,
  per-operation wrappers, configureAIService)
- `src/ai/prompts.ts` (parseAIJson)
- `src/ai/providers/{groq,claude,gemini}.ts` (callAPI result extraction and
  structured-operation wrappers; the three files share identical structured
  wrappers, differing only in the HTTP content-extraction path)
- `src/api/routes.ts` (POST /config handler)

JavaScript strings are embedded as `List Char`; the JS builtin `JSON.parse`
is embedded as a fueled recursive-descent parser over the JSON grammar
(numeric literals are kept as their raw lexemes, which is sufficient here
since no definition in this file computes with parsed numbers).
-/

namespace LetsMCP

/-- JS whitespace test used by `String.prototype.trim` / JSON, restricted to
the ASCII whitespace characters that occur in this development. -/
def isWsChar (c : Char) : Bool := c = ' ' || c = '\n' || c = '\t' || c = '\r'

/-- Embedding of `s.trim()` on a JS string given as a char list. -/
def jsTrim (l : List Char) : List Char :=
  ((l.dropWhile isWsChar).reverse.dropWhile isWsChar).reverse

/-- Embedding of `s.startsWith(p)`. -/
def startsWithL (p l : List Char) : Bool := p.isPrefixOf l

/-- Embedding of `s.endsWith(p)`. -/
def endsWithL (p l : List Char) : Bool := p.reverse.isPrefixOf l.reverse

/-- Embedding of `s.slice(0, -n)` (drop the last `n` characters). -/
def dropLastN (l : List Char) (n : Nat) : List Char := (l.reverse.drop n).reverse

/-- JSON values as produced by `JSON.parse`. Numbers keep their raw lexeme:
no definition in this development computes with a parsed number. -/
inductive Json where
  | null
  | bool (b : Bool)
  | num (lit : String)
  | str (s : String)
  | arr (elems : List Json)
  | obj (members : List (String × Json))

/-- Accept exactly the decimal digits. -/
def isDigitCh (c : Char) : Bool := '0' ≤ c && c ≤ '9'

/-- Consume one or more digits; fail on zero digits. -/
def parseDigits (cs : List Char) : Option (List Char × List Char) :=
  let ds := cs.takeWhile isDigitCh
  if ds.isEmpty then none else some (ds, cs.drop ds.length)

/-- Optional fraction part `.digits` of a JSON number. -/
def parseFrac (cs : List Char) : Option (List Char × List Char) :=
  match cs with
  | '.' :: r =>
    match parseDigits r with
    | some (ds, r2) => some ('.' :: ds, r2)
    | none => none
  | _ => some ([], cs)

/-- Optional exponent part `[eE][+-]?digits` of a JSON number. -/
def parseExp (cs : List Char) : Option (List Char × List Char) :=
  match cs with
  | c :: r =>
    if c = 'e' || c = 'E' then
      let (sgn, r1) := match r with
        | s :: r2 => if s = '+' || s = '-' then ([s], r2) else (([] : List Char), r)
        | [] => (([] : List Char), r)
      match parseDigits r1 with
      | some (ds, r2) => some (c :: (sgn ++ ds), r2)
      | none => none
    else some ([], cs)
  | [] => some ([], cs)

/-- JSON number lexeme `-?int frac? exp?`, rejecting leading zeros as
`JSON.parse` does. Returns the raw lexeme. -/
def parseNumberLex (cs : List Char) : Option (String × List Char) :=
  let (sign, cs1) := match cs with
    | '-' :: r => ((['-'] : List Char), r)
    | _ => (([] : List Char), cs)
  match parseDigits cs1 with
  | none => none
  | some (ids, cs2) =>
    if ids.length > 1 && ids.head? = some '0' then none
    else
      match parseFrac cs2 with
      | none => none
      | some (fds, cs3) =>
        match parseExp cs3 with
        | none => none
        | some (eds, cs4) => some (String.mk (sign ++ ids ++ fds ++ eds), cs4)

/-- Hexadecimal digit value, for `\uXXXX` escapes (code-point arithmetic:
48-57 are the digits, 97-102 lowercase a-f, 65-70 uppercase A-F). -/
def hexDigitVal (c : Char) : Option Nat :=
  let n := c.toNat
  if 48 ≤ n && n ≤ 57 then some (n - 48)
  else if 97 ≤ n && n ≤ 102 then some (n - 87)
  else if 65 ≤ n && n ≤ 70 then some (n - 55)
  else none

/-- Body of a JSON string literal after the opening quote: handles the JSON
escape sequences, rejects raw control characters, stops at the closing
quote. `\uXXXX` escapes denoting surrogate code points are rejected. -/
def parseStrBody : List Char → List Char → Option (String × List Char)
  | [], _ => none
  | c :: rest, acc =>
    if c = '"' then some (String.mk acc.reverse, rest)
    else if c = '\\' then
      match rest with
      | [] => none
      | e :: r2 =>
        if e = '"' then parseStrBody r2 ('"' :: acc)
        else if e = '\\' then parseStrBody r2 ('\\' :: acc)
        else if e = '/' then parseStrBody r2 ('/' :: acc)
        else if e = 'b' then parseStrBody r2 ('\x08' :: acc)
        else if e = 'f' then parseStrBody r2 ('\x0c' :: acc)
        else if e = 'n' then parseStrBody r2 ('\n' :: acc)
        else if e = 'r' then parseStrBody r2 ('\r' :: acc)
        else if e = 't' then parseStrBody r2 ('\t' :: acc)
        else if e = 'u' then
          match r2 with
          | h1 :: h2 :: h3 :: h4 :: r3 =>
            match hexDigitVal h1, hexDigitVal h2, hexDigitVal h3, hexDigitVal h4 with
            | some a, some b, some c4, some d =>
              let n := ((a * 16 + b) * 16 + c4) * 16 + d
              if h : n.isValidChar then parseStrBody r3 (Char.ofNatAux n h :: acc)
              else none
            | _, _, _, _ => none
          | _ => none
        else none
    else if c.toNat < 32 then none
    else parseStrBody rest (c :: acc)

mutual

/-- One JSON value (with leading whitespace skipped), fueled. -/
def parseVal : Nat → List Char → Option (Json × List Char)
  | 0, _ => none
  | f + 1, cs0 =>
    let cs := cs0.dropWhile isWsChar
    if startsWithL "true".data cs then some (Json.bool true, cs.drop 4)
    else if startsWithL "false".data cs then some (Json.bool false, cs.drop 5)
    else if startsWithL "null".data cs then some (Json.null, cs.drop 4)
    else
      match cs with
      | '"' :: rest =>
        match parseStrBody rest [] with
        | some (s, r) => some (Json.str s, r)
        | none => none
      | '\x7b' :: rest =>
        let r1 := rest.dropWhile isWsChar
        match r1 with
        | '\x7d' :: r2 => some (Json.obj [], r2)
        | _ => parseObjTail f r1 []
      | '[' :: rest =>
        let r1 := rest.dropWhile isWsChar
        match r1 with
        | ']' :: r2 => some (Json.arr [], r2)
        | _ => parseArrTail f r1 []
      | _ =>
        match parseNumberLex cs with
        | some (lex, r) => some (Json.num lex, r)
        | none => none

/-- Remaining elements of a non-empty JSON array, fueled. -/
def parseArrTail : Nat → List Char → List Json → Option (Json × List Char)
  | 0, _, _ => none
  | f + 1, cs, acc =>
    match parseVal f cs with
    | none => none
    | some (v, r) =>
      let r1 := r.dropWhile isWsChar
      match r1 with
      | ',' :: r2 => parseArrTail f r2 (v :: acc)
      | ']' :: r2 => some (Json.arr (v :: acc).reverse, r2)
      | _ => none

/-- Remaining members of a non-empty JSON object, fueled. -/
def parseObjTail : Nat → List Char → List (String × Json) → Option (Json × List Char)
  | 0, _, _ => none
  | f + 1, cs, acc =>
    let cs1 := cs.dropWhile isWsChar
    match cs1 with
    | '"' :: rest =>
      match parseStrBody rest [] with
      | none => none
      | some (k, r) =>
        let r1 := r.dropWhile isWsChar
        match r1 with
        | ':' :: r2 =>
          match parseVal f r2 with
          | none => none
          | some (v, r3) =>
            let r4 := r3.dropWhile isWsChar
            match r4 with
            | ',' :: r5 => parseObjTail f r5 ((k, v) :: acc)
            | '\x7d' :: r5 => some (Json.obj ((k, v) :: acc).reverse, r5)
            | _ => none
        | _ => none
    | _ => none

end

/-- Embedding of the JS builtin `JSON.parse` on a char list: one value,
then only trailing whitespace. `none` models the `SyntaxError` throw. -/
def jsonParseL (l : List Char) : Option Json :=
  match parseVal (2 * l.length + 2) l with
  | some (v, rest) => if (rest.dropWhile isWsChar).isEmpty then some v else none
  | none => none

/-- Embedding of `JSON.parse` on a `String`. -/
def jsonParse (s : String) : Option Json := jsonParseL s.data

/-- First reassignment of `cleaned` in `parseAIJson`: strip a leading
three-backtick-json marker (7 chars) or a bare three-backtick marker
(3 chars). -/
def stripLeadFence (cleaned : List Char) : List Char :=
  if startsWithL "```json".data cleaned then cleaned.drop 7
  else if startsWithL "```".data cleaned then cleaned.drop 3
  else cleaned

/-- Second reassignment of `cleaned`: strip a trailing three-backtick
marker (`slice(0, -3)`). -/
def stripTrailFence (cleaned : List Char) : List Char :=
  if endsWithL "```".data cleaned then dropLastN cleaned 3 else cleaned

/-- Embedding of `parseAIJson` from `src/ai/prompts.ts`: trim, strip a
leading three-backtick-json or three-backtick marker, strip a trailing
three-backtick marker, trim again, then `JSON.parse`. `none` models the
parse throw caught by each caller. -/
def parseAIJson (response : String) : Option Json :=
  jsonParseL (jsTrim (stripTrailFence (stripLeadFence (jsTrim response.data))))

example : jsonParse "\x7b\"a\":1\x7d" = some (Json.obj [("a", Json.num "1")]) := rfl

example : jsonParse "not json" = none := rfl

example :
    parseAIJson "```json\n\x7b\"title\":\"Engineer\"\x7d\n```" =
      some (Json.obj [("title", Json.str "Engineer")]) := rfl

/-! ## Provider descriptors and the registry (`src/ai/service.ts`) -/

/-- The three backend kinds, one per provider class
(`GroqProvider`, `ClaudeProvider`, `GeminiProvider`). -/
inductive PKind where
  | groq
  | claude
  | gemini
deriving DecidableEq

/-- The constant `name` field of each provider class. -/
def kindName : PKind → String
  | .groq => "groq"
  | .claude => "claude"
  | .gemini => "gemini"

/-- A registered provider instance: its class, credential and model. -/
structure ProviderDesc where
  kind : PKind
  apiKey : String
  model : String
deriving DecidableEq

/-- Embedding of `new GroqProvider(apiKey, model)`: default model applies when the
model argument is `undefined`. -/
def mkGroq (apiKey : String) (model : Option String) : ProviderDesc :=
  ⟨.groq, apiKey, model.getD "llama-3.1-70b-versatile"⟩

/-- Embedding of `new ClaudeProvider(apiKey, model)`. -/
def mkClaude (apiKey : String) (model : Option String) : ProviderDesc :=
  ⟨.claude, apiKey, model.getD "claude-3-5-sonnet-20241022"⟩

/-- Embedding of `new GeminiProvider(apiKey, model)`. -/
def mkGemini (apiKey : String) (model : Option String) : ProviderDesc :=
  ⟨.gemini, apiKey, model.getD "gemini-1.5-flash"⟩

/-- Embedding of `isConfigured()`: `!!this.apiKey && this.apiKey.length > 0`. -/
def ProviderDesc.isConfigured (p : ProviderDesc) : Bool := p.apiKey ≠ ""

/-- A JS `Map<string, AIProvider>` as an insertion-ordered association
list: `set` replaces in place or appends, `get` finds the first match. -/
def ProvMap := List (String × ProviderDesc)

/-- Embedding of `Map.prototype.get`. -/
def mapGet (m : ProvMap) (k : String) : Option ProviderDesc :=
  match m with
  | [] => none
  | (k', v) :: rest => if k' = k then some v else mapGet rest k

/-- Embedding of `Map.prototype.set`: replace in place if the key is present,
otherwise append (insertion order preserved). -/
def mapSet (m : ProvMap) (k : String) (v : ProviderDesc) : ProvMap :=
  match m with
  | [] => [(k, v)]
  | (k', v') :: rest => if k' = k then (k, v) :: rest else (k', v') :: mapSet rest k v

/-- One optional credential block of `AIServiceConfig`. -/
structure ProviderConfig where
  apiKey : String
  model : Option String

/-- The `AIServiceConfig` record from `src/ai/types.ts`. -/
structure AIServiceConfig where
  groq : Option ProviderConfig := none
  claude : Option ProviderConfig := none
  gemini : Option ProviderConfig := none
  defaultProvider : Option String := none

/-- The `AIService` state: the provider map and the default-provider name.
The static preference order is the constant `providerOrder`. -/
structure AIService where
  providers : ProvMap
  defaultProvider : String

/-- The static preference order `['groq', 'claude', 'gemini']`. -/
def providerOrder : List String := ["groq", "claude", "gemini"]

/-- Truthiness of `config.x?.apiKey`: block present with non-empty key. -/
def credOk : Option ProviderConfig → Bool
  | some c => c.apiKey ≠ ""
  | none => false

/-- The `AIService` constructor: register each kind whose credential block
is present with a non-empty key; override the initial default `'groq'`
when `config.defaultProvider` is truthy. -/
def AIService.construct (config : AIServiceConfig) : AIService :=
  let m0 : ProvMap := []
  let m1 := match config.groq with
    | some c => if c.apiKey ≠ "" then mapSet m0 "groq" (mkGroq c.apiKey c.model) else m0
    | none => m0
  let m2 := match config.claude with
    | some c => if c.apiKey ≠ "" then mapSet m1 "claude" (mkClaude c.apiKey c.model) else m1
    | none => m1
  let m3 := match config.gemini with
    | some c => if c.apiKey ≠ "" then mapSet m2 "gemini" (mkGemini c.apiKey c.model) else m2
    | none => m2
  let d := match config.defaultProvider with
    | some s => if s ≠ "" then s else "groq"
    | none => "groq"
  ⟨m3, d⟩

/-- Embedding of `updateConfig(config)`: same per-key registrations as the constructor,
but starting from the current state. -/
def AIService.updateConfig (s : AIService) (config : AIServiceConfig) : AIService :=
  let m1 := match config.groq with
    | some c => if c.apiKey ≠ "" then mapSet s.providers "groq" (mkGroq c.apiKey c.model) else s.providers
    | none => s.providers
  let m2 := match config.claude with
    | some c => if c.apiKey ≠ "" then mapSet m1 "claude" (mkClaude c.apiKey c.model) else m1
    | none => m1
  let m3 := match config.gemini with
    | some c => if c.apiKey ≠ "" then mapSet m2 "gemini" (mkGemini c.apiKey c.model) else m2
    | none => m2
  let d := match config.defaultProvider with
    | some s' => if s' ≠ "" then s' else s.defaultProvider
    | none => s.defaultProvider
  ⟨m3, d⟩

/-- Embedding of `getConfiguredProviders()`: the map's keys in insertion order. -/
def AIService.getConfiguredProviders (s : AIService) : List String :=
  s.providers.map Prod.fst

/-- Embedding of `hasProvider()`: `this.providers.size > 0`. -/
def AIService.hasProvider (s : AIService) : Bool := !s.providers.isEmpty

/-- Embedding of `getProvider(name?)`: truthy name → exact lookup; otherwise the
default provider's descriptor, else the first inserted value. -/
def AIService.getProvider (s : AIService) (name : Option String) : Option ProviderDesc :=
  match name with
  | some n =>
    if n ≠ "" then mapGet s.providers n
    else match mapGet s.providers s.defaultProvider with
      | some p => some p
      | none => (s.providers.head?).map Prod.snd
  | none =>
    match mapGet s.providers s.defaultProvider with
    | some p => some p
    | none => (s.providers.head?).map Prod.snd

/-! ## Trial order and the fallback executor -/

/-- Stable de-duplication keeping the first occurrence of each name,
as `[...new Set(list)]` produces (later duplicates of the head are filtered
out of the de-duplicated tail; this keeps exactly the first occurrences, in
order). -/
def dedupFirst : List String → List String
  | [] => []
  | x :: xs => x :: (dedupFirst xs).filter (fun y => y ≠ x)

/-- The trial order `[preferredProvider, this.defaultProvider, ...this.providerOrder]`
with falsy entries removed by `.filter(Boolean)`, then `[...new Set(...)]`. -/
def trialOrder (s : AIService) (preferred : Option String) : List String :=
  dedupFirst (((preferred.toList) ++ [s.defaultProvider] ++ providerOrder).filter
    (fun x => x ≠ ""))

/-- The fallback loop of `executeWithFallback`, instrumented: the second
component records, in order, the names of the providers whose backend was
actually invoked (needed to state non-invocation of later providers). -/
def tryProvidersT (s : AIService) (op : ProviderDesc → Except String α) :
    List String → List String → Except String (α × String) × List String
  | [], errors =>
    (.error ("All providers failed:\n" ++ String.intercalate "\n" errors), [])
  | n :: rest, errors =>
    match mapGet s.providers n with
    | none => tryProvidersT s op rest errors
    | some p =>
      if p.isConfigured then
        match op p with
        | .ok r => (.ok (r, n), [n])
        | .error e =>
          let (res, att) := tryProvidersT s op rest (errors ++ [n ++ ": " ++ e])
          (res, n :: att)
      else tryProvidersT s op rest errors

/-- Embedding of `executeWithFallback` with the invocation trace. -/
def executeWithFallbackT (s : AIService) (op : ProviderDesc → Except String α)
    (preferred : Option String) : Except String (α × String) × List String :=
  tryProvidersT s op (trialOrder s preferred) []

/-- Embedding of `executeWithFallback(operation, preferredProvider)` from
`src/ai/service.ts`. -/
def executeWithFallback (s : AIService) (op : ProviderDesc → Except String α)
    (preferred : Option String) : Except String (α × String) :=
  (executeWithFallbackT s op preferred).1

/-! ## JS member access on parsed JSON (for the per-kind `callAPI` bodies) -/

/-- Non-optional property access `base.k` on a `JSON.parse` result:
throws a `TypeError` on `null`, yields `undefined` (`none`) for a missing
key or a primitive/array base. -/
def jsStrictProp : Json → String → Except String (Option Json)
  | .null, _ => .error "TypeError: Cannot read properties of null"
  | .obj kvs, k => .ok ((kvs.find? (fun kv => kv.1 = k)).map Prod.snd)
  | _, _ => .ok none

/-- Non-optional index access `base[i]`: throws on `undefined`/`null`,
indexes arrays, yields `undefined` otherwise. -/
def jsStrictIndex : Option Json → Nat → Except String (Option Json)
  | none, _ => .error "TypeError: Cannot read properties of undefined"
  | some .null, _ => .error "TypeError: Cannot read properties of null"
  | some (.arr xs), i => .ok (xs.get? i)
  | some _, _ => .ok none

/-- Optional-chained property access `base?.k`. -/
def jsOptProp : Option Json → String → Option Json
  | none, _ => none
  | some .null, _ => none
  | some (.obj kvs), k => (kvs.find? (fun kv => kv.1 = k)).map Prod.snd
  | some _, _ => none

/-- Optional-chained index access `base?.[i]`. -/
def jsOptIndex : Option Json → Nat → Option Json
  | some (.arr xs), i => xs.get? i
  | _, _ => none

/-- The string value of a JS expression position typed as string; a
non-string value falls to the `|| ''` default downstream. -/
def jsStr : Option Json → Option String
  | some (.str s) => some s
  | _ => none

/-- Evaluation of `data.choices[0]?.message?.content` (`groq.ts`). -/
def groqContent (data : Json) : Except String (Option String) := do
  let c ← jsStrictProp data "choices"
  let e ← jsStrictIndex c 0
  pure (jsStr (jsOptProp (jsOptProp e "message") "content"))

/-- Evaluation of `data.content.find(c => c.type === 'text')` (`claude.ts`): property
access on each element throws on a `null` element. -/
def findTextItem : List Json → Except String (Option Json)
  | [] => .ok none
  | x :: xs => do
    let t ← jsStrictProp x "type"
    match t with
    | some (.str s) => if s = "text" then pure (some x) else findTextItem xs
    | _ => findTextItem xs

/-- Evaluation of `data.content.find(c => c.type === 'text')?.text` (`claude.ts`):
`.find` on a non-array content value throws a `TypeError`. -/
def claudeContent (data : Json) : Except String (Option String) := do
  let c ← jsStrictProp data "content"
  match c with
  | some (.arr xs) => do
    let tc ← findTextItem xs
    pure (jsStr (jsOptProp tc "text"))
  | _ => .error "TypeError: data.content.find is not a function"

/-- Evaluation of `data.candidates?.[0]?.content?.parts?.[0]?.text` (`gemini.ts`). -/
def geminiContent (data : Json) : Except String (Option String) := do
  let c ← jsStrictProp data "candidates"
  pure (jsStr (jsOptProp
    (jsOptIndex (jsOptProp (jsOptProp (jsOptIndex c 0) "content") "parts") 0) "text"))

/-- The content-extraction expression of each provider's `callAPI`. -/
def contentE : PKind → Json → Except String (Option String)
  | .groq => groqContent
  | .claude => claudeContent
  | .gemini => geminiContent

/-- The error-message prefix of each provider's non-ok branch. -/
def apiErrorPrefix : PKind → String
  | .groq => "Groq API error: "
  | .claude => "Claude API error: "
  | .gemini => "Gemini API error: "

/-- The outcome of the single `fetch` a `callAPI` performs: either the
promise rejects, or a response arrives with an ok flag, status, body text
(used by the non-ok branch) and the result of `response.json()`
(`none` models a body that is not valid JSON, making `.json()` throw). -/
inductive FetchOutcome where
  | reject (msg : String)
  | resp (ok : Bool) (status : Nat) (text : String) (json : Option Json)

/-- Embedding of `callAPI` of the provider class of kind `k`
(`groq.ts` / `claude.ts` / `gemini.ts`, identical shape): non-ok response →
throw `"<Kind> API error: <status> - <text>"`; ok response → extract the
completion content, defaulting to `''`. -/
def callAPI (k : PKind) (o : FetchOutcome) : Except String String :=
  match o with
  | .reject m => .error m
  | .resp ok status text json =>
    if ok then
      match json with
      | none => .error "SyntaxError: Unexpected token"
      | some data =>
        match contentE k data with
        | .ok c => .ok (c.getD "")
        | .error e => .error e
    else .error (apiErrorPrefix k ++ toString status ++ " - " ++ text)

/-! ## Structured operations of each provider
(`extractJobDetails` / `analyzeResume` / `draftEmail` are textually
identical across `groq.ts`, `claude.ts` and `gemini.ts`: call the API,
try `parseAIJson`, and on a parse throw return a fixed placeholder). -/

/-- The `EmailDraftContext` record (only the fields the embedded code reads). -/
structure EmailDraftContext where
  recipientName : String
  recipientRole : String
  companyName : String
  jobTitle : String
  tone : String
  intent : String
  jobDescription : Option String := none
  userBackground : Option String := none

/-- The catch-branch payload of `extractJobDetails`. -/
def placeholderJobDetails (text : String) : Json :=
  .obj [("title", .str ""), ("company", .str ""), ("location", .str ""),
    ("description", .str (String.mk (text.data.take 500)))]

/-- The catch-branch payload of `analyzeResume`. -/
def placeholderResumeAnalysis : Json :=
  .obj [("matchScore", .num "50"), ("strengths", .arr []), ("gaps", .arr []),
    ("recommendations", .arr [.str "Unable to complete AI analysis"]),
    ("keywords", .obj [("matched", .arr []), ("missing", .arr [])])]

/-- The catch-branch payload of `draftEmail`. -/
def placeholderEmailDraft (context : EmailDraftContext) : Json :=
  .obj [("subject", .str ("Reaching out about " ++ context.jobTitle)),
    ("body", .str "Unable to generate email draft."),
    ("confidence", .num "0")]

/-- The environment: the fetch outcome each provider's single `callAPI`
would observe during this one operation call. -/
def FetchEnv := PKind → FetchOutcome

/-- Embedding of `generateText` of a provider: the raw `callAPI` result. -/
def providerGenerateText (k : PKind) (env : FetchEnv) : Except String String :=
  callAPI k (env k)

/-- Embedding of `extractJobDetails` of a provider: parse the response, placeholder on
a parse throw. -/
def providerExtractJobDetails (k : PKind) (env : FetchEnv) (text : String) :
    Except String Json :=
  match callAPI k (env k) with
  | .error e => .error e
  | .ok response =>
    match parseAIJson response with
    | some j => .ok j
    | none => .ok (placeholderJobDetails text)

/-- Embedding of `analyzeResume` of a provider. -/
def providerAnalyzeResume (k : PKind) (env : FetchEnv) : Except String Json :=
  match callAPI k (env k) with
  | .error e => .error e
  | .ok response =>
    match parseAIJson response with
    | some j => .ok j
    | none => .ok placeholderResumeAnalysis

/-- Embedding of `draftEmail` of a provider. -/
def providerDraftEmail (k : PKind) (env : FetchEnv) (context : EmailDraftContext) :
    Except String Json :=
  match callAPI k (env k) with
  | .error e => .error e
  | .ok response =>
    match parseAIJson response with
    | some j => .ok j
    | none => .ok (placeholderEmailDraft context)

/-! ## Service-level operations (`src/ai/service.ts` wrappers) -/

/-- Embedding of `generateText(prompt, preferredProvider)` with the invocation trace. -/
def generateTextSvcT (s : AIService) (env : FetchEnv) (preferred : Option String) :
    Except String (String × String) × List String :=
  executeWithFallbackT s (fun p => providerGenerateText p.kind env) preferred

/-- Embedding of `generateText(prompt, preferredProvider)`. -/
def generateTextSvc (s : AIService) (env : FetchEnv) (preferred : Option String) :
    Except String (String × String) :=
  (generateTextSvcT s env preferred).1

/-- Embedding of `extractJobDetails(text, preferredProvider)` with the trace. -/
def extractJobDetailsSvcT (s : AIService) (env : FetchEnv) (text : String)
    (preferred : Option String) : Except String (Json × String) × List String :=
  executeWithFallbackT s (fun p => providerExtractJobDetails p.kind env text) preferred

/-- Embedding of `extractJobDetails(text, preferredProvider)`. -/
def extractJobDetailsSvc (s : AIService) (env : FetchEnv) (text : String)
    (preferred : Option String) : Except String (Json × String) :=
  (extractJobDetailsSvcT s env text preferred).1

/-- Embedding of `analyzeResume(jobDescription, resumeText, preferredProvider)` with
the trace (the two text inputs only shape the prompt, which the
environment abstracts over). -/
def analyzeResumeSvcT (s : AIService) (env : FetchEnv) (preferred : Option String) :
    Except String (Json × String) × List String :=
  executeWithFallbackT s (fun p => providerAnalyzeResume p.kind env) preferred

/-- Embedding of `draftEmail(context, preferredProvider)` with the trace. -/
def draftEmailSvcT (s : AIService) (env : FetchEnv) (context : EmailDraftContext)
    (preferred : Option String) : Except String (Json × String) × List String :=
  executeWithFallbackT s (fun p => providerDraftEmail p.kind env context) preferred

/-! ## REST `POST /config` handler (`src/api/routes.ts`) -/

/-- The `POST /config` handler body: `configureAIService(config)` replaces
the singleton with `new AIService(config)` and the response reports the
new service's configured providers. The previous singleton state is an
argument to make the state transition explicit; the handler ignores it. -/
def postConfigHandler (_prev : Option AIService) (body : AIServiceConfig) :
    AIService × List String :=
  let service := AIService.construct body
  (service, service.getConfiguredProviders)

/-! ## Registry lemmas -/

theorem mapGet_mapSet_self (m : ProvMap) (k : String) (v : ProviderDesc) :
    mapGet (mapSet m k v) k = some v := by
  induction m with
  | nil => simp [mapSet, mapGet]
  | cons hd t ih =>
    obtain ⟨k', v'⟩ := hd
    by_cases hk : k' = k <;> simp [mapSet, mapGet, hk, ih]

theorem mapGet_mapSet_ne (m : ProvMap) (k k' : String) (v : ProviderDesc)
    (h : k ≠ k') : mapGet (mapSet m k v) k' = mapGet m k' := by
  induction m with
  | nil => simp [mapSet, mapGet, h]
  | cons hd t ih =>
    obtain ⟨k'', v''⟩ := hd
    by_cases hk : k'' = k <;> simp [mapSet, mapGet, hk, h, ih]

theorem mem_keys_mapSet (m : ProvMap) (k n : String) (v : ProviderDesc) :
    n ∈ (mapSet m k v).map Prod.fst ↔ n ∈ m.map Prod.fst ∨ n = k := by
  induction m with
  | nil => simp [mapSet]
  | cons hd t ih =>
    obtain ⟨k', v'⟩ := hd
    by_cases hk : k' = k <;> simp [mapSet, hk, ih] <;> tauto

/-! ## C4: registration at construction -/

/-- C4: constructing the service from a config registers exactly those backend
kinds (groq, claude, gemini) whose config entry is present with a non-empty
credential: `getConfiguredProviders` lists exactly those kinds' names and
`hasProvider` is true iff at least one such kind exists; in particular
`{groq: {apiKey: "k"}}` gives `true` / `["groq"]` and the empty config gives
`false` / `[]`. -/
theorem construct_registers_exactly (config : AIServiceConfig) :
    (AIService.construct config).getConfiguredProviders =
      ((if credOk config.groq then ["groq"] else []) ++
       (if credOk config.claude then ["claude"] else []) ++
       (if credOk config.gemini then ["gemini"] else [])) ∧
    (AIService.construct config).hasProvider =
      (credOk config.groq || credOk config.claude || credOk config.gemini) ∧
    (AIService.construct { groq := some ⟨"k", none⟩ }).hasProvider = true ∧
    (AIService.construct { groq := some ⟨"k", none⟩ }).getConfiguredProviders = ["groq"] ∧
    (AIService.construct {}).hasProvider = false ∧
    (AIService.construct {}).getConfiguredProviders = [] := by
  refine ⟨?_, ?_, rfl, rfl, rfl, rfl⟩ <;>
  · rcases config with ⟨g, c, m, d⟩
    rcases g with _ | ⟨gk, gm⟩ <;> rcases c with _ | ⟨ck, cm⟩ <;> rcases m with _ | ⟨mk', mm⟩ <;>
      simp only [AIService.construct, credOk, AIService.getConfiguredProviders,
        AIService.hasProvider] <;>
      first
        | (split_ifs <;> simp_all [mapSet])
        | simp_all [mapSet]

/-! ## C5: updateConfig merge semantics -/

/-- C5: `updateConfig(partialConfig)` merges: a provider key absent from the
partial config leaves the existing registration under that key exactly as it
was, and the default-provider name is unchanged unless the partial config
supplies one; a key present with a non-empty credential has its descriptor
fully replaced by one built from the new credential and model. -/
theorem updateConfig_merge_semantics (s : AIService) (config : AIServiceConfig) :
    (config.groq = none →
      mapGet (s.updateConfig config).providers "groq" = mapGet s.providers "groq") ∧
    (config.claude = none →
      mapGet (s.updateConfig config).providers "claude" = mapGet s.providers "claude") ∧
    (config.gemini = none →
      mapGet (s.updateConfig config).providers "gemini" = mapGet s.providers "gemini") ∧
    (∀ c, config.groq = some c → c.apiKey ≠ "" →
      mapGet (s.updateConfig config).providers "groq" = some (mkGroq c.apiKey c.model)) ∧
    (∀ c, config.claude = some c → c.apiKey ≠ "" →
      mapGet (s.updateConfig config).providers "claude" = some (mkClaude c.apiKey c.model)) ∧
    (∀ c, config.gemini = some c → c.apiKey ≠ "" →
      mapGet (s.updateConfig config).providers "gemini" = some (mkGemini c.apiKey c.model)) ∧
    (config.defaultProvider = none →
      (s.updateConfig config).defaultProvider = s.defaultProvider) := by
  rcases config with ⟨g, c, m, d⟩
  rcases g with _ | ⟨gk, gm⟩ <;> rcases c with _ | ⟨ck, cm⟩ <;> rcases m with _ | ⟨mk', mm⟩ <;>
    rcases d with _ | dv <;>
    simp [AIService.updateConfig, mapGet_mapSet_self, mapGet_mapSet_ne] <;>
    (try split_ifs) <;>
    simp_all [mapGet_mapSet_self, mapGet_mapSet_ne]

/-- Witness for C5 at a concrete state and partial config: start from
`{groq: {apiKey: "k1"}}`, update with `{claude: {apiKey: "ck"}}`; groq's
registration and the default are untouched, claude's descriptor is the
freshly built one. -/
theorem updateConfig_merge_semantics_witness :
    mapGet ((AIService.construct { groq := some ⟨"k1", none⟩ }).updateConfig
      { claude := some ⟨"ck", none⟩ }).providers "groq" =
        mapGet (AIService.construct { groq := some ⟨"k1", none⟩ }).providers "groq" ∧
    mapGet ((AIService.construct { groq := some ⟨"k1", none⟩ }).updateConfig
      { claude := some ⟨"ck", none⟩ }).providers "claude" = some (mkClaude "ck" none) ∧
    ((AIService.construct { groq := some ⟨"k1", none⟩ }).updateConfig
      { claude := some ⟨"ck", none⟩ }).defaultProvider =
      (AIService.construct { groq := some ⟨"k1", none⟩ }).defaultProvider := by
  obtain ⟨h1, _, _, _, h5, _, h7⟩ :=
    updateConfig_merge_semantics (AIService.construct { groq := some ⟨"k1", none⟩ })
      { claude := some ⟨"ck", none⟩ }
  exact ⟨h1 rfl, h5 ⟨"ck", none⟩ rfl (by decide), h7 rfl⟩

/-! ## C9: updateConfig never removes a provider -/

/-- C9: no `updateConfig` call removes a provider: every name configured
before the call is still configured after it; and a provider key present in
the partial config with an empty credential is ignored, leaving the
previously registered descriptor (old credential and model) in place. -/
theorem updateConfig_never_removes (s : AIService) (config : AIServiceConfig) :
    (∀ n, n ∈ s.getConfiguredProviders →
      n ∈ (s.updateConfig config).getConfiguredProviders) ∧
    (∀ c, config.groq = some c → c.apiKey = "" →
      mapGet (s.updateConfig config).providers "groq" = mapGet s.providers "groq") ∧
    (∀ c, config.claude = some c → c.apiKey = "" →
      mapGet (s.updateConfig config).providers "claude" = mapGet s.providers "claude") ∧
    (∀ c, config.gemini = some c → c.apiKey = "" →
      mapGet (s.updateConfig config).providers "gemini" = mapGet s.providers "gemini") := by
  have hmono : ∀ (m : ProvMap) k v n, n ∈ m.map Prod.fst → n ∈ (mapSet m k v).map Prod.fst :=
    fun m k v n h => (mem_keys_mapSet m k n v).2 (Or.inl h)
  rcases config with ⟨g, c, m, d⟩
  constructor
  · intro n hn
    rcases g with _ | ⟨gk, gm⟩ <;> rcases c with _ | ⟨ck, cm⟩ <;> rcases m with _ | ⟨mk', mm⟩ <;>
      simp only [AIService.updateConfig, AIService.getConfiguredProviders] at hn ⊢ <;>
      (try split_ifs) <;>
      (repeat first | exact hn | apply hmono)
  · rcases g with _ | ⟨gk, gm⟩ <;> rcases c with _ | ⟨ck, cm⟩ <;> rcases m with _ | ⟨mk', mm⟩ <;>
      simp [AIService.updateConfig, mapGet_mapSet_self, mapGet_mapSet_ne] <;>
      (try split_ifs) <;>
      simp_all [mapGet_mapSet_self, mapGet_mapSet_ne]

/-- Witness for C9: with groq registered as `{apiKey: "k1"}`, an update whose
groq block has an empty credential leaves groq configured with the old
descriptor. -/
theorem updateConfig_never_removes_witness :
    ("groq" ∈ ((AIService.construct { groq := some ⟨"k1", none⟩ }).updateConfig
      { groq := some ⟨"", none⟩ }).getConfiguredProviders) ∧
    mapGet ((AIService.construct { groq := some ⟨"k1", none⟩ }).updateConfig
      { groq := some ⟨"", none⟩ }).providers "groq" =
      mapGet (AIService.construct { groq := some ⟨"k1", none⟩ }).providers "groq" := by
  obtain ⟨h1, h2, _, _⟩ :=
    updateConfig_never_removes (AIService.construct { groq := some ⟨"k1", none⟩ })
      { groq := some ⟨"", none⟩ }
  exact ⟨h1 "groq" (by decide), h2 ⟨"", none⟩ rfl rfl⟩

/-! ## C7: getProvider lookup -/

/-- C7 counterexample: `getProvider('')` is a call with a name given, the
empty name is not registered, yet the call does not return absent — the
falsy-name check `if (name)` routes it to the default-provider branch, which
returns groq's descriptor. -/
theorem getProvider_given_name_counterexample :
    (AIService.construct { groq := some ⟨"k", none⟩ }).getProvider (some "") =
      some (mkGroq "k" none) ∧
    mapGet (AIService.construct { groq := some ⟨"k", none⟩ }).providers "" = none :=
  ⟨rfl, rfl⟩

/-- C7 amended: `getProvider` with a NON-EMPTY name given returns exactly the
descriptor registered under that name (absent if not registered); with the
name omitted — or empty, which the falsy check treats as omitted — it returns
the default provider's descriptor when registered, else some registered
descriptor whenever the registry is non-empty, and absent only when the
registry is empty; and repeated lookups without reconfiguration return
descriptors with identical credential and model. -/
theorem getProvider_lookup (s : AIService) :
    (∀ n, n ≠ "" → s.getProvider (some n) = mapGet s.providers n) ∧
    (∀ p, mapGet s.providers s.defaultProvider = some p → s.getProvider none = some p) ∧
    (mapGet s.providers s.defaultProvider = none → s.providers ≠ [] →
      ∃ n p, s.getProvider none = some p ∧ mapGet s.providers n = some p) ∧
    (s.providers = [] → s.getProvider none = none) ∧
    (s.getProvider (some "") = s.getProvider none) ∧
    (∀ p q, s.getProvider (some "groq") = some p → s.getProvider (some "groq") = some q →
      p.apiKey = q.apiKey ∧ p.model = q.model) := by
  refine ⟨?_, ?_, ?_, ?_, ?_, ?_⟩
  · intro n hn
    simp [AIService.getProvider, hn]
  · intro p hp
    simp [AIService.getProvider, hp]
  · intro hd hne
    rcases hh : s.providers with _ | ⟨kp, rest⟩
    · exact absurd hh hne
    · obtain ⟨k, p⟩ := kp
      rw [hh] at hd
      refine ⟨k, p, ?_, ?_⟩
      · simp [AIService.getProvider, hh, hd]
      · simp [hh, mapGet]
  · intro h
    simp [AIService.getProvider, h, mapGet]
  · simp [AIService.getProvider]
  · intro p q hp hq
    rw [hp] at hq
    cases hq
    exact ⟨rfl, rfl⟩

/-- Witness for C7 (amended) at a groq-only service: exact lookup of
`"groq"`, default-branch lookup with the name omitted, and idempotent
credential/model values. -/
theorem getProvider_lookup_witness :
    (AIService.construct { groq := some ⟨"k", none⟩ }).getProvider (some "groq") =
      some (mkGroq "k" none) ∧
    (AIService.construct { groq := some ⟨"k", none⟩ }).getProvider none =
      some (mkGroq "k" none) ∧
    ((mkGroq "k" none).apiKey = (mkGroq "k" none).apiKey ∧
      (mkGroq "k" none).model = (mkGroq "k" none).model) := by
  obtain ⟨h1, h2, _, _, _, h6⟩ :=
    getProvider_lookup (AIService.construct { groq := some ⟨"k", none⟩ })
  have hg := (h1 "groq" (by decide)).trans rfl
  exact ⟨hg, h2 (mkGroq "k" none) rfl, h6 (mkGroq "k" none) (mkGroq "k" none) hg hg⟩

/-! ## C6: POST /config semantics -/

/-- C6 counterexample: with claude registered beforehand, a POST /config body
omitting the claude key yields a service WITHOUT claude — the handler calls
`configureAIService`, which constructs a fresh service, rather than
`updateConfig`, whose merge semantics would have kept claude (third
conjunct). -/
theorem postConfig_counterexample :
    mapGet (postConfigHandler
      (some (AIService.construct { claude := some ⟨"ck", none⟩ }))
      { groq := some ⟨"gk", none⟩ }).1.providers "claude" = none ∧
    mapGet (AIService.construct { claude := some ⟨"ck", none⟩ }).providers "claude" =
      some (mkClaude "ck" none) ∧
    mapGet ((AIService.construct { claude := some ⟨"ck", none⟩ }).updateConfig
      { groq := some ⟨"gk", none⟩ }).providers "claude" = some (mkClaude "ck" none) :=
  ⟨rfl, rfl, rfl⟩

/-- C6 amended: POST /config constructs a fresh service from the posted
config (Construct/replace semantics): the result is independent of the
previous service state, provider keys absent from the body (or with empty
credentials) are NOT registered afterwards, and the response reports the new
service's configured provider names. -/
theorem postConfig_replace_semantics (prev1 prev2 : Option AIService)
    (body : AIServiceConfig) :
    postConfigHandler prev1 body = postConfigHandler prev2 body ∧
    (postConfigHandler prev1 body).1 = AIService.construct body ∧
    (postConfigHandler prev1 body).2 = (AIService.construct body).getConfiguredProviders ∧
    (credOk body.groq = false →
      mapGet (postConfigHandler prev1 body).1.providers "groq" = none) ∧
    (credOk body.claude = false →
      mapGet (postConfigHandler prev1 body).1.providers "claude" = none) ∧
    (credOk body.gemini = false →
      mapGet (postConfigHandler prev1 body).1.providers "gemini" = none) := by
  refine ⟨rfl, rfl, rfl, ?_, ?_, ?_⟩ <;>
    · rcases body with ⟨g, c, m, d⟩
      rcases g with _ | ⟨gk, gm⟩ <;> rcases c with _ | ⟨ck, cm⟩ <;> rcases m with _ | ⟨mk', mm⟩ <;>
        intro h <;>
        simp only [credOk] at h <;>
        simp only [postConfigHandler, AIService.construct] <;>
        (try split_ifs) <;>
        simp_all [mapGet, mapGet_mapSet_self, mapGet_mapSet_ne]

/-- Witness for C6 (amended): concrete previous states and body. -/
theorem postConfig_replace_semantics_witness :
    postConfigHandler (some (AIService.construct { claude := some ⟨"ck", none⟩ }))
        { groq := some ⟨"gk", none⟩ } =
      postConfigHandler none { groq := some ⟨"gk", none⟩ } ∧
    mapGet (postConfigHandler (some (AIService.construct { claude := some ⟨"ck", none⟩ }))
        { groq := some ⟨"gk", none⟩ }).1.providers "claude" = none := by
  obtain ⟨h1, _, _, _, h5, _⟩ := postConfig_replace_semantics
    (some (AIService.construct { claude := some ⟨"ck", none⟩ })) none
    { groq := some ⟨"gk", none⟩ }
  exact ⟨h1, h5 rfl⟩

/-! ## C1: trial order construction and early return -/

/-- The loop's skip test: name resolves to a registered, configured
provider. -/
def eligOf (s : AIService) (n : String) : Bool :=
  match mapGet s.providers n with
  | some p => p.isConfigured
  | none => false

/-- The trial order restricted to registered names (the claim's
"unregistered names skipped without error"). -/
def registeredOrder (s : AIService) (preferred : Option String) : List String :=
  (trialOrder s preferred).filter (fun n => (mapGet s.providers n).isSome)

/-- The trial order restricted to the names the loop actually attempts. -/
def eligibleOrder (s : AIService) (preferred : Option String) : List String :=
  (trialOrder s preferred).filter (eligOf s)

/-- The operation as a function of the candidate name (the default branch is
never reached on a registered-only candidate list). -/
def opAtName (s : AIService) (op : ProviderDesc → Except String α) (n : String) :
    Except String α :=
  match mapGet s.providers n with
  | some p => op p
  | none => .error ""

/-- Modelled from the spec's execution loop (§4.2), over a pre-filtered
candidate list: attempt each name in order; on the first success return
{result, name} immediately and attempt nothing further; on failure record
`name: message` and continue; on exhaustion fail with the newline-joined
log. The second component is the list of names attempted, in order. -/
def specAttempt (opAt : String → Except String α) :
    List String → List String → Except String (α × String) × List String
  | [], log => (.error ("All providers failed:\n" ++ String.intercalate "\n" log), [])
  | n :: rest, log =>
    match opAt n with
    | .ok r => (.ok (r, n), [n])
    | .error e =>
      let (res, att) := specAttempt opAt rest (log ++ [n ++ ": " ++ e])
      (res, n :: att)

theorem tryProvidersT_eq_specAttempt (s : AIService) (op : ProviderDesc → Except String α)
    (hinv : ∀ n p, mapGet s.providers n = some p → p.isConfigured = true)
    (l : List String) (log : List String) :
    tryProvidersT s op l log =
      specAttempt (opAtName s op) (l.filter (fun n => (mapGet s.providers n).isSome)) log := by
  induction l generalizing log with
  | nil => rfl
  | cons n rest ih =>
    cases hm : mapGet s.providers n with
    | none => simp [tryProvidersT, hm, List.filter_cons, ih]
    | some p =>
      have hc := hinv n p hm
      cases hop : op p with
      | ok r =>
        simp [tryProvidersT, hm, hc, List.filter_cons, specAttempt, opAtName, hop]
      | error e =>
        simp [tryProvidersT, hm, hc, List.filter_cons, specAttempt, opAtName, hop, ih]

/-- C1: for every operation call with an optional preferred-provider name,
the executor behaves as the spec's loop over the stable de-duplication of
`[preferred (if given and non-empty), default, groq, claude, gemini]` with
unregistered names skipped without error: the providers attempted and the
result (early return of `{result, name}` on the first success, with no later
provider invoked) coincide with `specAttempt` over that candidate list. The
hypothesis is the registry invariant — every registered provider has a
non-empty credential — which holds in every constructed service. -/
theorem fallback_trial_order (s : AIService) (op : ProviderDesc → Except String α)
    (preferred : Option String)
    (hinv : ∀ n p, mapGet s.providers n = some p → p.isConfigured = true) :
    executeWithFallbackT s op preferred =
      specAttempt (opAtName s op) (registeredOrder s preferred) [] ∧
    (∀ q, q ≠ "" → s.defaultProvider ≠ "" →
      trialOrder s (some q) = dedupFirst ([q, s.defaultProvider] ++ providerOrder)) := by
  constructor
  · exact tryProvidersT_eq_specAttempt s op hinv _ []
  · intro q hq hd
    simp [trialOrder, providerOrder, List.filter_cons, hq, hd]

/-- Witness for C1, the spec's P5 shape: groq and gemini registered, groq
preferred, groq's backend succeeding: the refinement applies and the call
returns groq's result with only groq attempted (gemini never invoked). -/
theorem fallback_trial_order_witness :
    executeWithFallbackT
        (AIService.construct { groq := some ⟨"k1", none⟩, gemini := some ⟨"k2", none⟩ })
        (fun p => .ok (kindName p.kind)) (some "groq") =
      specAttempt
        (opAtName (AIService.construct { groq := some ⟨"k1", none⟩, gemini := some ⟨"k2", none⟩ })
          (fun p => .ok (kindName p.kind)))
        (registeredOrder
          (AIService.construct { groq := some ⟨"k1", none⟩, gemini := some ⟨"k2", none⟩ })
          (some "groq")) [] ∧
    executeWithFallbackT
        (AIService.construct { groq := some ⟨"k1", none⟩, gemini := some ⟨"k2", none⟩ })
        (fun p => .ok (kindName p.kind)) (some "groq") =
      (.ok ("groq", "groq"), ["groq"]) := by
  constructor
  · exact (fallback_trial_order
      (AIService.construct { groq := some ⟨"k1", none⟩, gemini := some ⟨"k2", none⟩ })
      (fun p => .ok (kindName p.kind)) (some "groq")
      (by
        intro n p hp
        have hpl : (AIService.construct
            { groq := some ⟨"k1", none⟩, gemini := some ⟨"k2", none⟩ }).providers =
            [("groq", mkGroq "k1" none), ("gemini", mkGemini "k2" none)] := rfl
        rw [hpl] at hp
        simp only [mapGet] at hp
        split_ifs at hp <;> (cases hp; decide))).1
  · rfl

/-! ## C2: exhaustion error -/

/-- C2: if every registered-and-configured provider in the trial order fails
(with `msg n` the message of `n`'s failure), the operation fails with a
single error whose message is the newline-joined log of `name: message`
entries in attempt order; with no eligible provider at all the joined log is
empty and the call still fails. -/
theorem exhaustion_error_message (s : AIService) (op : ProviderDesc → Except String α)
    (preferred : Option String) (msg : String → String)
    (hfail : ∀ n p, n ∈ trialOrder s preferred → mapGet s.providers n = some p →
      p.isConfigured = true → op p = .error (msg n)) :
    executeWithFallback s op preferred =
      .error ("All providers failed:\n" ++ String.intercalate "\n"
        ((eligibleOrder s preferred).map (fun n => n ++ ": " ++ msg n))) := by
  have key : ∀ l log,
      (∀ n p, n ∈ l → mapGet s.providers n = some p → p.isConfigured = true →
        op p = .error (msg n)) →
      (tryProvidersT s op l log).1 = .error ("All providers failed:\n" ++
        String.intercalate "\n"
          (log ++ (l.filter (eligOf s)).map (fun n => n ++ ": " ++ msg n))) := by
    intro l
    induction l with
    | nil => intro log _; simp [tryProvidersT]
    | cons n rest ih =>
      intro log hl
      have hrest : ∀ n' p, n' ∈ rest → mapGet s.providers n' = some p →
          p.isConfigured = true → op p = .error (msg n') :=
        fun n' p hm => hl n' p (List.mem_cons_of_mem n hm)
      cases hm : mapGet s.providers n with
      | none => simp [tryProvidersT, hm, List.filter_cons, eligOf, ih log hrest]
      | some p =>
        cases hc : p.isConfigured with
        | false => simp [tryProvidersT, hm, hc, List.filter_cons, eligOf, ih log hrest]
        | true =>
          have hop := hl n p (List.mem_cons_self n rest) hm hc
          simp [tryProvidersT, hm, hc, hop, List.filter_cons, eligOf,
            ih (log ++ [n ++ ": " ++ msg n]) hrest, List.append_assoc]
  have h := key (trialOrder s preferred) [] (fun n p hn => hfail n p hn)
  simpa [executeWithFallback, executeWithFallbackT, eligibleOrder] using h

/-- Witness for C2: (a) only groq registered and its backend always throwing
"boom": GenerateText fails with the joined message, which decomposes around
the substring "groq" and the underlying error text; (b) no providers
registered: the call still fails, with the empty joined log. -/
theorem exhaustion_error_message_witness :
    generateTextSvc (AIService.construct { groq := some ⟨"k1", none⟩ })
        (fun _ => .reject "boom") none =
      .error "All providers failed:\ngroq: boom" ∧
    "All providers failed:\ngroq: boom" =
      "All providers failed:" ++ "\n" ++ "groq" ++ ": " ++ "boom" ∧
    generateTextSvc (AIService.construct {}) (fun _ => .reject "boom") none =
      .error ("All providers failed:" ++ "\n") := by
  refine ⟨?_, rfl, ?_⟩
  · have h := exhaustion_error_message (AIService.construct { groq := some ⟨"k1", none⟩ })
      (fun p => providerGenerateText p.kind (fun _ => .reject "boom")) none
      (fun _ => "boom") (fun n p _ _ _ => rfl)
    exact h.trans (by rfl)
  · have h := exhaustion_error_message (AIService.construct {})
      (fun p => providerGenerateText p.kind (fun _ => .reject "boom")) none
      (fun _ => "boom")
      (fun n p _ hp _ => by simp [AIService.construct, mapGet] at hp)
    exact h.trans (by rfl)

/-! ## C3: parse failure inside a structured operation -/

theorem tryProvidersT_first_success (s : AIService) (op : ProviderDesc → Except String α)
    (l log : List String) (n : String) (rest : List String) (r : α)
    (hl : l.filter (eligOf s) = n :: rest)
    (hok : ∀ p, mapGet s.providers n = some p → op p = .ok r) :
    tryProvidersT s op l log = (.ok (r, n), [n]) := by
  induction l generalizing log with
  | nil => exact absurd hl (by simp)
  | cons m l' ih =>
    rw [List.filter_cons] at hl
    cases hm : mapGet s.providers m with
    | none =>
      have he : eligOf s m = false := by simp [eligOf, hm]
      rw [he] at hl
      simp only [Bool.false_eq_true, if_false] at hl
      simp only [tryProvidersT, hm]
      exact ih log hl
    | some p =>
      cases hc : p.isConfigured with
      | false =>
        have he : eligOf s m = false := by simp [eligOf, hm, hc]
        rw [he] at hl
        simp only [Bool.false_eq_true, if_false] at hl
        simp only [tryProvidersT, hm, hc]
        exact ih log hl
      | true =>
        have he : eligOf s m = true := by simp [eligOf, hm, hc]
        rw [he] at hl
        simp only [if_true] at hl
        obtain ⟨rfl, -⟩ := List.cons.inj hl
        simp [tryProvidersT, hm, hc, hok p hm]

/-- C3 counterexample: groq and gemini both registered; groq's backend
obtains an HTTP success whose text `"not json"` cannot be parsed as the
structured payload. The operation SUCCEEDS with provider groq and the
placeholder payload, only groq is attempted, no error is recorded, and
gemini is never invoked — the attempt is not treated as a backend failure. -/
theorem parse_failure_counterexample :
    extractJobDetailsSvcT
        (AIService.construct { groq := some ⟨"k1", none⟩, gemini := some ⟨"k2", none⟩ })
        (fun _ => .resp true 200 "" (some (Json.obj [("choices", Json.arr
          [Json.obj [("message", Json.obj [("content", Json.str "not json")])]])])))
        "job text" none =
      (.ok (placeholderJobDetails "job text", "groq"), ["groq"]) := rfl

/-- C3 amended: for every structured operation, when the first eligible
provider's backend obtains a successful HTTP response whose text cannot be
parsed as the structured payload, the operation SUCCEEDS immediately with
that provider and the operation's fixed placeholder payload: the attempt is
not recorded in an error log and the fallback does not proceed to any later
provider in the trial order. -/
theorem parse_failure_placeholder (s : AIService) (env : FetchEnv)
    (text : String) (context : EmailDraftContext) (preferred : Option String)
    (n : String) (rest : List String) (p : ProviderDesc) (t : String)
    (hl : eligibleOrder s preferred = n :: rest)
    (hp : mapGet s.providers n = some p)
    (hok : callAPI p.kind (env p.kind) = .ok t)
    (hparse : parseAIJson t = none) :
    extractJobDetailsSvcT s env text preferred =
      (.ok (placeholderJobDetails text, n), [n]) ∧
    analyzeResumeSvcT s env preferred = (.ok (placeholderResumeAnalysis, n), [n]) ∧
    draftEmailSvcT s env context preferred =
      (.ok (placeholderEmailDraft context, n), [n]) := by
  have hl' : (trialOrder s preferred).filter (eligOf s) = n :: rest := hl
  refine ⟨?_, ?_, ?_⟩
  · refine tryProvidersT_first_success s _ _ [] n rest _ hl' ?_
    intro p' hp'
    rw [hp] at hp'
    injection hp' with h
    subst h
    simp [providerExtractJobDetails, hok, hparse]
  · refine tryProvidersT_first_success s _ _ [] n rest _ hl' ?_
    intro p' hp'
    rw [hp] at hp'
    injection hp' with h
    subst h
    simp [providerAnalyzeResume, hok, hparse]
  · refine tryProvidersT_first_success s _ _ [] n rest _ hl' ?_
    intro p' hp'
    rw [hp] at hp'
    injection hp' with h
    subst h
    simp [providerDraftEmail, hok, hparse]

/-- Witness for C3 (amended) at the counterexample's concrete input. -/
theorem parse_failure_placeholder_witness :
    analyzeResumeSvcT
        (AIService.construct { groq := some ⟨"k1", none⟩, gemini := some ⟨"k2", none⟩ })
        (fun _ => .resp true 200 "" (some (Json.obj [("choices", Json.arr
          [Json.obj [("message", Json.obj [("content", Json.str "not json")])]])])))
        none =
      (.ok (placeholderResumeAnalysis, "groq"), ["groq"]) := by
  have h := parse_failure_placeholder
    (AIService.construct { groq := some ⟨"k1", none⟩, gemini := some ⟨"k2", none⟩ })
    (fun _ => .resp true 200 "" (some (Json.obj [("choices", Json.arr
      [Json.obj [("message", Json.obj [("content", Json.str "not json")])]])])))
    "job text"
    ⟨"Ada", "Manager", "Corp", "Engineer", "Professional", "Connect", none, none⟩
    none "groq" ["gemini"] (mkGroq "k1" none) "not json" rfl rfl rfl rfl
  exact h.2.1

/-! ## C10: missing completion-content field -/

/-- C10: for every provider backend, an HTTP-success response whose JSON
body lacks the expected completion-content field (the content extraction
evaluates to `undefined` rather than throwing or producing a string) yields
a successful completion returning the empty string; and a GenerateText call
whose first eligible provider observes such a response succeeds with empty
text and that provider's name, with no later provider invoked. -/
theorem missing_content_empty_string (k : PKind) (body : Json) (status : Nat)
    (txt : String) (s : AIService) (env : FetchEnv) (preferred : Option String)
    (n : String) (rest : List String) (p : ProviderDesc)
    (hbody : contentE k body = .ok none)
    (hl : eligibleOrder s preferred = n :: rest)
    (hp : mapGet s.providers n = some p)
    (henv : env p.kind = .resp true status txt (some body))
    (hk : p.kind = k) :
    callAPI k (.resp true status txt (some body)) = .ok "" ∧
    generateTextSvcT s env preferred = (.ok ("", n), [n]) := by
  have hcall : callAPI k (.resp true status txt (some body)) = .ok "" := by
    simp [callAPI, hbody]
  refine ⟨hcall, ?_⟩
  refine tryProvidersT_first_success s _ _ [] n rest _ hl ?_
  intro p' hp'
  rw [hp] at hp'
  injection hp' with h
  subst h
  rw [hk] at henv
  simp only [providerGenerateText]
  rw [hk, henv, hcall]

/-- Witness for C10: groq and claude registered; groq's backend returns a
2xx whose body's message object has no content field; GenerateText succeeds
with empty text from groq and claude is never invoked. -/
theorem missing_content_empty_string_witness :
    callAPI .groq (.resp true 200 ""
      (some (Json.obj [("choices", Json.arr [Json.obj [("message", Json.obj [])]])]))) =
      .ok "" ∧
    generateTextSvcT
        (AIService.construct { groq := some ⟨"k1", none⟩, claude := some ⟨"k2", none⟩ })
        (fun _ => .resp true 200 ""
          (some (Json.obj [("choices", Json.arr [Json.obj [("message", Json.obj [])]])])))
        none =
      (.ok ("", "groq"), ["groq"]) := by
  exact missing_content_empty_string .groq
    (Json.obj [("choices", Json.arr [Json.obj [("message", Json.obj [])]])]) 200 ""
    (AIService.construct { groq := some ⟨"k1", none⟩, claude := some ⟨"k2", none⟩ })
    (fun _ => .resp true 200 ""
      (some (Json.obj [("choices", Json.arr [Json.obj [("message", Json.obj [])]])])))
    none "groq" ["claude"] (mkGroq "k1" none) rfl rfl rfl rfl rfl

/-! ## C8: fence stripping in parseAIJson -/

theorem dropWhile_cons_nonws (a : Char) (l : List Char) (ha : isWsChar a = false) :
    List.dropWhile isWsChar (a :: l) = a :: l := by
  rw [List.dropWhile_cons, if_neg]
  simp [ha]

theorem jsTrim_cons_ws (a : Char) (l : List Char) (ha : isWsChar a = true) :
    jsTrim (a :: l) = jsTrim l := by
  unfold jsTrim
  rw [List.dropWhile_cons, if_pos (by simp [ha])]

theorem jsTrim_append_ws (b : Char) (l : List Char) (hb : isWsChar b = true) :
    jsTrim (l ++ [b]) = jsTrim l := by
  unfold jsTrim
  rw [List.dropWhile_append]
  by_cases he : (List.dropWhile isWsChar l).isEmpty = true
  · rw [if_pos he]
    rw [List.isEmpty_iff] at he
    rw [he, List.dropWhile_cons, if_pos (by simp [hb])]
    rfl
  · rw [if_neg he, List.reverse_append]
    simp only [List.reverse_cons, List.reverse_nil, List.nil_append, List.singleton_append]
    rw [List.dropWhile_cons, if_pos (by simp [hb])]

theorem jsTrim_of_nonws_ends (a b : Char) (mid : List Char)
    (ha : isWsChar a = false) (hb : isWsChar b = false) :
    jsTrim (a :: (mid ++ [b])) = a :: (mid ++ [b]) := by
  unfold jsTrim
  rw [dropWhile_cons_nonws a _ ha]
  have h1 : (a :: (mid ++ [b])).reverse = b :: (mid.reverse ++ [a]) := by simp
  rw [h1, dropWhile_cons_nonws b _ hb]
  have h2 : (b :: (mid.reverse ++ [a])).reverse = a :: (mid ++ [b]) := by simp
  rw [h2]

/-- C8: the structured-response parser strips an optional leading
three-backtick-json or bare three-backtick marker and an optional trailing
three-backtick marker before parsing the trimmed remainder as JSON; in
particular, for every inner text `t`, a json-tagged fenced wrapping and a
bare fenced wrapping both reduce to parsing the trimmed `t`; and on the
spec's P8 backend response, `extractJobDetails` succeeds from groq with a
payload whose title field is "Engineer". -/
theorem parseAIJson_fences (t : String) :
    parseAIJson ("```json\n" ++ t ++ "\n```") = jsonParseL (jsTrim t.data) ∧
    parseAIJson ("```\n" ++ t ++ "\n```") = jsonParseL (jsTrim t.data) ∧
    extractJobDetailsSvcT (AIService.construct { groq := some ⟨"k", none⟩ })
        (fun _ => .resp true 200 "" (some (Json.obj [("choices", Json.arr
          [Json.obj [("message", Json.obj [("content", Json.str
            "```json\n\x7b\"title\":\"Engineer\",\"company\":\"Corp\",\"location\":\"NYC\",\"description\":\"Work\"\x7d\n```")])]])])))
        "input" none =
      (.ok (Json.obj [("title", Json.str "Engineer"), ("company", Json.str "Corp"),
        ("location", Json.str "NYC"), ("description", Json.str "Work")], "groq"),
       ["groq"]) ∧
    jsOptProp (some (Json.obj [("title", Json.str "Engineer"), ("company", Json.str "Corp"),
      ("location", Json.str "NYC"), ("description", Json.str "Work")])) "title" =
      some (Json.str "Engineer") := by
  refine ⟨?_, ?_, rfl, rfl⟩
  · have hdata : ("```json\n" ++ t ++ "\n```").data =
        "```json".data ++ ('\n' :: (t.data ++ ['\n', '`', '`', '`'])) := by
      rw [String.data_append, String.data_append,
        show "```json\n".data = "```json".data ++ ['\n'] from rfl,
        show "\n```".data = ['\n', '`', '`', '`'] from rfl]
      simp [List.append_assoc]
    have htrim : jsTrim ("```json".data ++ ('\n' :: (t.data ++ ['\n', '`', '`', '`']))) =
        "```json".data ++ ('\n' :: (t.data ++ ['\n', '`', '`', '`'])) := by
      rw [show "```json".data ++ ('\n' :: (t.data ++ ['\n', '`', '`', '`'])) =
        '`' :: ((['`', '`', 'j', 's', 'o', 'n', '\n'] ++ (t.data ++ ['\n', '`', '`'])) ++ ['`'])
        from by simp [show "```json".data = ['`', '`', '`', 'j', 's', 'o', 'n'] from rfl]]
      exact jsTrim_of_nonws_ends '`' '`' _ rfl rfl
    have hstart : startsWithL "```json".data
        ("```json".data ++ ('\n' :: (t.data ++ ['\n', '`', '`', '`']))) = true := by
      rw [startsWithL, List.isPrefixOf_iff_prefix]
      exact List.prefix_append _ _
    have hdrop : ("```json".data ++ ('\n' :: (t.data ++ ['\n', '`', '`', '`']))).drop 7 =
        '\n' :: (t.data ++ ['\n', '`', '`', '`']) := by
      rw [show (7 : Nat) = ("```json".data).length from rfl]
      exact List.drop_left _ _
    have hrev : ('\n' :: (t.data ++ ['\n', '`', '`', '`'])).reverse =
        ['`', '`', '`'] ++ ('\n' :: (t.data.reverse ++ ['\n'])) := by
      simp
    have hend : endsWithL "```".data ('\n' :: (t.data ++ ['\n', '`', '`', '`'])) = true := by
      rw [endsWithL, List.isPrefixOf_iff_prefix, hrev,
        show "```".data.reverse = ['`', '`', '`'] from rfl]
      exact List.prefix_append _ _
    have hlast : dropLastN ('\n' :: (t.data ++ ['\n', '`', '`', '`'])) 3 =
        '\n' :: (t.data ++ ['\n']) := by
      rw [dropLastN, hrev,
        show (3 : Nat) = (['`', '`', '`'] : List Char).length from rfl,
        List.drop_left]
      simp
    rw [parseAIJson, hdata, htrim, stripLeadFence, if_pos hstart, hdrop,
      stripTrailFence, if_pos hend, hlast,
      show ('\n' :: (t.data ++ ['\n'])) = '\n' :: (t.data ++ ['\n']) from rfl,
      jsTrim_cons_ws '\n' _ rfl, jsTrim_append_ws '\n' _ rfl]
  · have hdata : ("```\n" ++ t ++ "\n```").data =
        "```".data ++ ('\n' :: (t.data ++ ['\n', '`', '`', '`'])) := by
      rw [String.data_append, String.data_append,
        show "```\n".data = "```".data ++ ['\n'] from rfl,
        show "\n```".data = ['\n', '`', '`', '`'] from rfl]
      simp [List.append_assoc]
    have htrim : jsTrim ("```".data ++ ('\n' :: (t.data ++ ['\n', '`', '`', '`']))) =
        "```".data ++ ('\n' :: (t.data ++ ['\n', '`', '`', '`'])) := by
      rw [show "```".data ++ ('\n' :: (t.data ++ ['\n', '`', '`', '`'])) =
        '`' :: ((['`', '`', '\n'] ++ (t.data ++ ['\n', '`', '`'])) ++ ['`'])
        from by simp [show "```".data = ['`', '`', '`'] from rfl]]
      exact jsTrim_of_nonws_ends '`' '`' _ rfl rfl
    have hstart7 : startsWithL "```json".data
        ("```".data ++ ('\n' :: (t.data ++ ['\n', '`', '`', '`']))) = false := by
      rw [show "```".data ++ ('\n' :: (t.data ++ ['\n', '`', '`', '`'])) =
        '`' :: '`' :: '`' :: '\n' :: (t.data ++ ['\n', '`', '`', '`'])
        from by simp [show "```".data = ['`', '`', '`'] from rfl],
        show "```json".data = ['`', '`', '`', 'j', 's', 'o', 'n'] from rfl]
      simp [startsWithL, List.isPrefixOf,
        show (('j' : Char) == '\n') = false from rfl]
    have hstart3 : startsWithL "```".data
        ("```".data ++ ('\n' :: (t.data ++ ['\n', '`', '`', '`']))) = true := by
      rw [startsWithL, List.isPrefixOf_iff_prefix]
      exact List.prefix_append _ _
    have hdrop : ("```".data ++ ('\n' :: (t.data ++ ['\n', '`', '`', '`']))).drop 3 =
        '\n' :: (t.data ++ ['\n', '`', '`', '`']) := by
      rw [show (3 : Nat) = ("```".data).length from rfl]
      exact List.drop_left _ _
    have hrev : ('\n' :: (t.data ++ ['\n', '`', '`', '`'])).reverse =
        ['`', '`', '`'] ++ ('\n' :: (t.data.reverse ++ ['\n'])) := by
      simp
    have hend : endsWithL "```".data ('\n' :: (t.data ++ ['\n', '`', '`', '`'])) = true := by
      rw [endsWithL, List.isPrefixOf_iff_prefix, hrev,
        show "```".data.reverse = ['`', '`', '`'] from rfl]
      exact List.prefix_append _ _
    have hlast : dropLastN ('\n' :: (t.data ++ ['\n', '`', '`', '`'])) 3 =
        '\n' :: (t.data ++ ['\n']) := by
      rw [dropLastN, hrev,
        show (3 : Nat) = (['`', '`', '`'] : List Char).length from rfl,
        List.drop_left]
      simp
    rw [parseAIJson, hdata, htrim, stripLeadFence,
      if_neg (by rw [hstart7]; exact Bool.false_ne_true),
      if_pos hstart3, hdrop, stripTrailFence, if_pos hend, hlast,
      jsTrim_cons_ws '\n' _ rfl, jsTrim_append_ws '\n' _ rfl]

end LetsMCP
